import Mathlib

/-!
Verification of the dashboard repository's data normalization and
aggregation pipeline.

The JavaScript sources are shallowly embedded here:
* numbers are modelled exactly: a JavaScript number is either a finite
  rational, `NaN`, `Infinity` or `-Infinity` (`JsNum`); float rounding and
  overflow are outside the model, so `parseFloat` yields a rational or `NaN`;
* raw CSV rows are association lists from header labels to cell values;
* each relevant source function becomes an executable Lean definition with
  the same name where possible (`num`, `parseRawData`, `aggregateData`,
  `getDemoData`, ...).
-/

/-- A JavaScript number: a finite (exact) rational, `NaN`, `Infinity` or
`-Infinity`. -/
inductive JsNum where
  | fin (q : ℚ)
  | nan
  | inf
  | negInf
deriving DecidableEq, Repr

namespace JsNum

/-- JavaScript addition on `JsNum`. -/
def add : JsNum → JsNum → JsNum
  | nan, _ => nan
  | _, nan => nan
  | inf, negInf => nan
  | negInf, inf => nan
  | inf, _ => inf
  | _, inf => inf
  | negInf, _ => negInf
  | _, negInf => negInf
  | fin a, fin b => fin (a + b)

/-- JavaScript negation on `JsNum`. -/
def neg : JsNum → JsNum
  | nan => nan
  | inf => negInf
  | negInf => inf
  | fin a => fin (-a)

/-- JavaScript subtraction on `JsNum`. -/
def sub (a b : JsNum) : JsNum := add a (neg b)

/-- JavaScript multiplication on `JsNum`. -/
def mul : JsNum → JsNum → JsNum
  | nan, _ => nan
  | _, nan => nan
  | inf, inf => inf
  | inf, negInf => negInf
  | negInf, inf => negInf
  | negInf, negInf => inf
  | inf, fin b => if b = 0 then nan else if 0 < b then inf else negInf
  | fin a, inf => if a = 0 then nan else if 0 < a then inf else negInf
  | negInf, fin b => if b = 0 then nan else if 0 < b then negInf else inf
  | fin a, negInf => if a = 0 then nan else if 0 < a then negInf else inf
  | fin a, fin b => fin (a * b)

/-- JavaScript division on `JsNum` (division of a nonzero finite number by
zero yields a signed infinity, `0 / 0` yields `NaN`). -/
def div : JsNum → JsNum → JsNum
  | nan, _ => nan
  | _, nan => nan
  | inf, inf => nan
  | inf, negInf => nan
  | negInf, inf => nan
  | negInf, negInf => nan
  | inf, fin b => if 0 ≤ b then inf else negInf
  | negInf, fin b => if 0 ≤ b then negInf else inf
  | fin _, inf => fin 0
  | fin _, negInf => fin 0
  | fin a, fin b =>
      if b = 0 then (if a = 0 then nan else if 0 < a then inf else negInf)
      else fin (a / b)

/-- JavaScript `Math.ceil` on `JsNum`. -/
def ceil : JsNum → JsNum
  | nan => nan
  | inf => inf
  | negInf => negInf
  | fin a => fin (Int.ceil a : ℤ)

/-- JavaScript strict greater-than comparison (`NaN` compares false). -/
def gt : JsNum → JsNum → Bool
  | fin a, fin b => decide (b < a)
  | inf, fin _ => true
  | inf, negInf => true
  | fin _, negInf => true
  | _, _ => false

/-- JavaScript greater-or-equal comparison (`NaN` compares false). -/
def ge : JsNum → JsNum → Bool
  | fin a, fin b => decide (b ≤ a)
  | inf, fin _ => true
  | inf, inf => true
  | inf, negInf => true
  | fin _, negInf => true
  | negInf, negInf => true
  | _, _ => false

end JsNum

/-! ## The `parseFloat` model

JavaScript's `parseFloat` skips leading whitespace, reads an optional sign,
then the longest prefix shaped like `digits [. digits] [e [sign] digits]`,
ignoring any trailing characters; it returns `NaN` when no digits were read.
Floating-point overflow and the `Infinity` literal are outside this exact
rational model. -/

/-- Numeric value of a list of decimal digit characters. -/
def digitsVal (l : List Char) : ℕ :=
  l.foldl (fun a c => 10 * a + (c.toNat - 48)) 0

/-- Parse the mantissa part `digits [. digits]` from the head of a character
list; returns the value together with the unconsumed remainder, or `none`
when no digits are present. -/
def pfMantissa (l : List Char) : Option (ℚ × List Char) :=
  let intPart := l.takeWhile Char.isDigit
  let r1 := l.dropWhile Char.isDigit
  match r1 with
  | '.' :: r2 =>
      let frac := r2.takeWhile Char.isDigit
      let r3 := r2.dropWhile Char.isDigit
      if intPart = [] ∧ frac = [] then none
      else some ((digitsVal intPart : ℚ) + (digitsVal frac : ℚ) / 10 ^ frac.length, r3)
  | _ => if intPart = [] then none else some ((digitsVal intPart : ℚ), r1)

/-- Parse an optional exponent part `e [sign] digits` from the head of a
character list, yielding the exponent as an integer (`0` when absent or
malformed, matching `parseFloat`'s longest-valid-prefix behaviour). -/
def pfExponentOf (l : List Char) : ℤ :=
  match l with
  | 'e' :: r | 'E' :: r =>
      match r with
      | '-' :: r2 =>
          let ds := r2.takeWhile Char.isDigit
          if ds = [] then 0 else -(digitsVal ds : ℤ)
      | '+' :: r2 =>
          let ds := r2.takeWhile Char.isDigit
          if ds = [] then 0 else (digitsVal ds : ℤ)
      | _ =>
          let ds := r.takeWhile Char.isDigit
          if ds = [] then 0 else (digitsVal ds : ℤ)
  | _ => 0

/-- Unsigned core of `parseFloat`: mantissa with optional exponent. -/
def pfCore (l : List Char) : Option ℚ :=
  (pfMantissa l).map (fun p => p.1 * (10 : ℚ) ^ pfExponentOf p.2)

/-- The `parseFloat` model: `none` stands for `NaN`. -/
def parseFloatQ (s : String) : Option ℚ :=
  match s.toList.dropWhile Char.isWhitespace with
  | [] => none
  | c :: t =>
      if c = '-' then (pfCore t).map (fun q => -q)
      else if c = '+' then pfCore t
      else pfCore (c :: t)

/-- Model of `String.replace` deleting every comma. -/
def stripCommas (s : String) : String :=
  String.mk (s.toList.filter (fun c => c ≠ ','))

/-- Stripping every comma and every percent sign (the cleanup performed by
`num` in `part_000`). -/
def stripCommasPct (s : String) : String :=
  String.mk (s.toList.filter (fun c => c ≠ ',' ∧ c ≠ '%'))

/-! ## part_001 — wide-layout normalizer and aggregation engine -/

/-- A raw CSV row as produced by the ingestion collaborator with
`header: true`: an association list from header label to cell string.
A missing key models an `undefined` cell. -/
def Row1 : Type := List (String × String)

/-- Test for the date-column pattern `/^\d{1,2}-[A-Z][a-z]{2}$/`
(`parseRawData` in part_001). -/
def isDateCol (s : String) : Bool :=
  match s.toList with
  | [d, '-', u, a, b] => d.isDigit && u.isUpper && a.isLower && b.isLower
  | [d1, d2, '-', u, a, b] =>
      d1.isDigit && d2.isDigit && u.isUpper && a.isLower && b.isLower
  | _ => false

/-- Cell coercion used inside `parseRawData` (part_001 lines 104-110):
`let val = 0; if (valStr) val = parseFloat(valStr.replace(/,/g, ''))`.
Note there is no guard against a failed parse, so a non-empty unparseable
cell yields `NaN`. -/
def coerce1 (valStr : Option String) : JsNum :=
  match valStr with
  | none => .fin 0
  | some s => if s = "" then .fin 0 else
      match parseFloatQ (stripCommas s) with
      | some q => .fin q
      | none => .nan

/-- A canonical record emitted by `parseRawData` (part_001). -/
structure Rec1 where
  date : String
  brand : String
  platform : Option String
  type : Option String
  value : JsNum
  posts : JsNum
  followers : JsNum
  engagement : JsNum
deriving DecidableEq, Repr

/-- JavaScript template-literal stringification of a possibly-`undefined`
string (an `undefined` value prints as `"undefined"`). -/
def jsTemplateStr (o : Option String) : String := o.getD "undefined"

/-- The date columns detected from the first row's keys
(`Object.keys(csvRows[0] || {}).filter(...)`). -/
def dateColsOf (rows : List Row1) : List String :=
  match rows with
  | [] => []
  | r :: _ => (r.map Prod.fst).filter isDateCol

/-- One record per (row, date column): part_001 lines 120-130. -/
def mkRec1 (row : Row1) (brand : String) (date : String) : Rec1 :=
  let val := coerce1 (List.lookup date row)
  { date := date
    brand := brand
    platform := List.lookup "Platform" row
    type := List.lookup "Type" row
    value := val
    posts := JsNum.ceil (JsNum.div val (.fin 1000))
    followers := JsNum.mul val (.fin 10)
    engagement := val }

/-- The `parseRawData` function (part_001 lines 83-133): flattens wide-layout rows into
one record per (row, date column), silently skipping rows whose `Brand`
cell is missing or empty. -/
def parseRawData (csvRows : List Row1) : List Rec1 :=
  let dateCols := dateColsOf csvRows
  csvRows.flatMap (fun row =>
    match List.lookup "Brand" row with
    | none => []
    | some b => if b = "" then [] else dateCols.map (mkRec1 row b))

/-- Model of `selectedTypes.includes(d.type)`: an `undefined` record type never
matches a list of selected strings. -/
def includesOpt (sel : List String) (t : Option String) : Bool :=
  match t with
  | some s => sel.contains s
  | none => false

/-- The current-week filter in `updateDashboard` (part_001 lines 160-165):
week, type, brand and the minimum-engagement threshold. -/
def currentData (raw : List Rec1) (selectedWeek : String)
    (selectedTypes selectedBrands : List String) (minEng : ℤ) : List Rec1 :=
  raw.filter (fun d =>
    d.date == selectedWeek &&
    includesOpt selectedTypes d.type &&
    selectedBrands.contains d.brand &&
    JsNum.ge d.engagement (.fin (minEng : ℚ)))

/-- The previous-week filter in `updateDashboard` (part_001 lines 167-171):
week, type and brand only — no engagement threshold. -/
def prevData (raw : List Rec1) (prevWeek : Option String)
    (selectedTypes selectedBrands : List String) : List Rec1 :=
  match prevWeek with
  | none => []
  | some w =>
      raw.filter (fun d =>
        d.date == w &&
        includesOpt selectedTypes d.type &&
        selectedBrands.contains d.brand)

/-- The `(brand, platform)` comparison key: `` `${brand}-${platform}` ``. -/
def keyOf (brand : String) (platform : Option String) : String :=
  brand ++ "-" ++ jsTemplateStr platform

/-- Model of `new Map(prev.map(p => [key, p]))` followed by `.get`: on duplicate
keys the later entry wins. -/
def prevLookup (prev : List Rec1) (k : String) : Option Rec1 :=
  prev.foldl (fun acc p => if keyOf p.brand p.platform = k then some p else acc) none

/-- A current record enriched with its previous-period comparison
(the element shape of `aggregateData(...).items`). -/
structure Item1 where
  date : String
  brand : String
  platform : Option String
  type : Option String
  value : JsNum
  posts : JsNum
  followers : JsNum
  engagement : JsNum
  prevEng : JsNum
  prevFoll : JsNum
  wowEng : JsNum
  wowFoll : JsNum
deriving DecidableEq, Repr

/-- The per-record comparison step of `aggregateData` (part_001 lines
191-200). -/
def mkItem1 (prev : List Rec1) (c : Rec1) : Item1 :=
  let p := prevLookup prev (keyOf c.brand c.platform)
  { date := c.date, brand := c.brand, platform := c.platform, type := c.type
    value := c.value, posts := c.posts, followers := c.followers
    engagement := c.engagement
    prevEng := match p with | some p => p.engagement | none => .fin 0
    prevFoll := match p with | some p => p.followers | none => .fin 0
    wowEng :=
      match p with
      | some p =>
          if JsNum.gt p.engagement (.fin 0) then
            JsNum.mul (JsNum.div (JsNum.sub c.engagement p.engagement) p.engagement) (.fin 100)
          else .fin 0
      | none => .fin 0
    wowFoll :=
      match p with
      | some p =>
          if JsNum.gt p.followers (.fin 0) then
            JsNum.mul (JsNum.div (JsNum.sub c.followers p.followers) p.followers) (.fin 100)
          else .fin 0
      | none => .fin 0 }

/-- Per-type bucket of `aggregateData`'s `byType` object. -/
structure TypeAgg where
  eng : JsNum
  posts : JsNum
  count : ℕ
deriving DecidableEq, Repr

/-- One `byType` update: initialize the bucket on first sight of a key
(appending, as JS object insertion order does), then accumulate into the
first — and only — entry with that key. -/
def bumpByType (k : String) (i : Item1) :
    List (String × TypeAgg) → List (String × TypeAgg)
  | [] => [(k, ⟨JsNum.add (.fin 0) i.engagement, JsNum.add (.fin 0) i.posts, 1⟩)]
  | e :: rest =>
      if e.1 = k then (e.1, ⟨JsNum.add e.2.eng i.engagement, JsNum.add e.2.posts i.posts, e.2.count + 1⟩) :: rest
      else e :: bumpByType k i rest

/-- The `byType` grouping of `aggregateData` (part_001 lines 208-214). -/
def buildByType (items : List Item1) : List (String × TypeAgg) :=
  items.foldl (fun acc i => bumpByType (jsTemplateStr i.type) i acc) []

/-- The result shape of `aggregateData`. -/
structure Agg1 where
  items : List Item1
  totalEng : JsNum
  totalPosts : JsNum
  totalFoll : JsNum
  byType : List (String × TypeAgg)

/-- The `aggregateData` function (part_001 lines 187-217). -/
def aggregateData (curr prev : List Rec1) : Agg1 :=
  let items := curr.map (mkItem1 prev)
  { items := items
    totalEng := items.foldl (fun s i => JsNum.add s i.engagement) (.fin 0)
    totalPosts := items.foldl (fun s i => JsNum.add s i.posts) (.fin 0)
    totalFoll := items.foldl (fun s i => JsNum.add s i.followers) (.fin 0)
    byType := buildByType items }

/-! ## part_000 — long-layout normalizer, overview aggregates, demo data -/

/-- A raw cell of part_000's input: the CSV supplies strings, the demo-data
generator supplies numbers. -/
inductive CellVal where
  | str (s : String)
  | num (q : ℚ)
deriving DecidableEq, Repr

/-- A raw row for part_000: header label to cell value. -/
def Row0 : Type := List (String × CellVal)

/-- JavaScript truthiness of a possibly-missing cell (`undefined`, `""`
and `0` are falsy). -/
def cellTruthy : Option CellVal → Bool
  | none => false
  | some (.str s) => s ≠ ""
  | some (.num q) => q ≠ 0

/-- Stringification of a cell. Demo and CSV brand/type cells are always
strings; the numeric branch (JavaScript number-to-string) is included for
totality and is exercised by no input of this development. -/
def cellString : CellVal → String
  | .str s => s
  | .num q => toString q

/-- The string behind a truthy cell, or `none` when the cell is falsy —
one step of a JavaScript `||` fallback chain over string cells. -/
def truthyString : Option CellVal → Option String
  | none => none
  | some (.str s) => if s = "" then none else some s
  | some (.num q) => if q = 0 then none else some (toString q)

/-- The string path of part_000's `num` helper: strip commas and percent
signs, `parseFloat`, and `|| 0` (so a failed parse and an empty value both
coerce to 0, and the result is never `NaN`). -/
def numStr (s : String) : ℚ :=
  if s = "" then 0
  else
    match parseFloatQ (stripCommasPct s) with
    | some q => q
    | none => 0

/-- The `num` helper of `processData` (part_000 lines 86-92):
`val = row[key] || "0"`, strip commas and percent signs when the value is a
string, `parseFloat(val) || 0`. -/
def num (row : Row0) (key : String) : ℚ :=
  match List.lookup key row with
  | none => 0
  | some (.str s) => numStr s
  | some (.num q) => if q = 0 then 0 else q

/-- JavaScript `||` on numbers that are never `NaN`: keep the left value
unless it is 0. -/
def orQ (a b : ℚ) : ℚ := if a = 0 then b else a

/-- The canonical record built by `processData` (part_000 lines 112-131). -/
structure Rec0 where
  brand : String
  type : String
  posts : ℚ
  videoPosts : ℚ
  imagePosts : ℚ
  engagement : ℚ
  prevEngagement : ℚ
  followers : ℚ
  prevFollowers : ℚ
  engRate : ℚ
  wowEng : ℚ
  wowFoll : ℚ
deriving DecidableEq, Repr

/-- One row of `processData` (part_000 lines 84-132), including the
wide-format adapter: when `Total Engagement` and `Followers (Current Week)`
are both 0, the last date-pattern column of the row supplies the metric. -/
def toRec0 (row : Row0) : Rec0 :=
  let totalEng0 := num row "Total Engagement"
  let followers0 := num row "Followers (Current Week)"
  let totalEng :=
    if totalEng0 = 0 ∧ followers0 = 0 then
      match ((row.map Prod.fst).filter isDateCol).getLast? with
      | some lastDate => num row lastDate
      | none => totalEng0
    else totalEng0
  { brand :=
      ((truthyString (List.lookup "Brand" row)).or
        (truthyString (List.lookup "Platform Name" row))).getD "Unknown"
    type := (truthyString (List.lookup "Type" row)).getD "Other"
    posts := orQ (num row "Total Posts") 10
    videoPosts := orQ (num row "Video Posts") (orQ (num row "Video") 0)
    imagePosts := orQ (num row "Image Posts") (orQ (num row "Image") 0)
    engagement := totalEng
    prevEngagement := orQ (num row "Total Engagement (Prev)") (totalEng * (9 / 10))
    followers := orQ followers0 (orQ (num row "Followers") 0)
    prevFollowers := orQ (num row "Followers (Previous Week)") (followers0 * (19 / 20))
    engRate := num row "Engagement Rate (%)"
    wowEng := num row "Week on Week Δ Engagement %"
    wowFoll := num row "Week on Week Δ Followers %" }

/-- The normalization step of `processData` (part_000): one record per input row,
rows are never dropped. -/
def processData0 (data : List Row0) : List Rec0 :=
  data.map toRec0

/-- Total engagement of the filtered set,
`filteredData.reduce((s, i) => s + i.engagement, 0)` (part_000 line 167). -/
def totalEngagement0 (l : List Rec0) : ℚ :=
  l.foldl (fun s i => s + i.engagement) 0

/-- Total previous engagement (part_000 line 168). -/
def prevEngagement0 (l : List Rec0) : ℚ :=
  l.foldl (fun s i => s + i.prevEngagement) 0

/-- The CEO-summary percentage change (part_000 line 169):
`(totalEng - prevEng) / prevEng * 100`, with no guard on a zero divisor. -/
def industryPctChange (l : List Rec0) : JsNum :=
  JsNum.mul
    (JsNum.div (.fin (totalEngagement0 l - prevEngagement0 l)) (.fin (prevEngagement0 l)))
    (.fin 100)

/-- Stable insertion step for a descending sort by a rational key: the new
element passes over strictly greater keys only, so it lands before every
element of equal key that followed it in the input. -/
def insertDesc {α : Type} (key : α → ℚ) (x : α) : List α → List α
  | [] => [x]
  | y :: ys => if key x < key y then y :: insertDesc key x ys else x :: y :: ys

/-- Stable descending sort by a rational key — the behaviour of JavaScript
`Array.prototype.sort` with comparator `(a, b) => key(b) - key(a)`
(specified stable since ES2019). -/
def sortByDesc {α : Type} (key : α → ℚ) : List α → List α
  | [] => []
  | x :: xs => insertDesc key x (sortByDesc key xs)

/-- The top-5 ranking of part_000 line 206:
`[...filteredData].sort((a, b) => b.engagement - a.engagement).slice(0, 5)`. -/
def top5ByEngagement (l : List Rec0) : List Rec0 :=
  (sortByDesc (fun d => d.engagement) l).take 5

/-- Rounding model of JavaScript `toFixed(d)`: nearest multiple of
`10^(-d)`, half rounded up. -/
def toFixedVal (d : ℕ) (q : ℚ) : ℚ :=
  ((Int.floor (q * 10 ^ d + 1 / 2) : ℤ) : ℚ) / 10 ^ d

/-- Brands of the demo dataset (part_000 line 398). -/
def brandsDemo : List String :=
  ["Nustar", "Okada", "Solaire", "GCash", "Maya", "BingoPlus", "ArenaPlus"]

/-- Types of the demo dataset (part_000 line 399). -/
def typesDemo : List String :=
  ["IR Casino", "IR Casino", "IR Casino", "Fintech", "Fintech", "Online Casino", "Online Casino"]

/-- One demo row (part_000 lines 401-413). `Math.random()` is modelled as a
stream `s` of rationals consumed left to right: the `j`-th call made while
building row `i` reads `s (9 * i + j)`. The `toFixed` calls produce decimal
strings; they are modelled by their exact rational values, which `num`
parses back unchanged. -/
def demoRow (s : ℕ → ℚ) (i : ℕ) (b t : String) : Row0 :=
  [("Brand", .str b),
   ("Type", .str t),
   ("Total Posts", .num ((Int.floor (s (9 * i) * 50) + 10 : ℤ) : ℚ)),
   ("Video Posts", .num ((Int.floor (s (9 * i + 1) * 20) : ℤ) : ℚ)),
   ("Image Posts", .num ((Int.floor (s (9 * i + 2) * 30) : ℤ) : ℚ)),
   ("Total Engagement", .num ((Int.floor (s (9 * i + 3) * 500000) + 50000 : ℤ) : ℚ)),
   ("Total Engagement (Prev)", .num ((Int.floor (s (9 * i + 4) * 500000) + 50000 : ℤ) : ℚ)),
   ("Engagement Rate (%)", .num (toFixedVal 2 (s (9 * i + 5) * 5))),
   ("Followers (Current Week)", .num ((Int.floor (s (9 * i + 6) * 2000000) + 100000 : ℤ) : ℚ)),
   ("Week on Week Δ Engagement %", .num (toFixedVal 1 (s (9 * i + 7) * 100 - 30))),
   ("Week on Week Δ Followers %", .num (toFixedVal 1 (s (9 * i + 8) * 10 - 2)))]

/-- The `getDemoData` generator (part_000 lines 397-414): seven rows with fixed brands
and types and `Math.random()`-driven metrics. -/
def getDemoData (s : ℕ → ℚ) : List Row0 :=
  (List.range 7).map (fun i => demoRow s i (brandsDemo.getD i "") (typesDemo.getD i ""))

/-! ## part_002 — movers chart comparison -/

/-- A normalized row of part_002 as read by `renderMoversChart`: brand
(the `Platform Name` column), week, and the already-coerced
`Total Engagement` (`normalizeRow` maps every numeric cell through
`parseFloat` with an `isNaN` guard, so the value is a finite number). -/
structure Row2 where
  brand : String
  week : String
  totalEngagement : ℚ
deriving DecidableEq, Repr

/-- One step of the part_002 accumulation
`byBrandWeek[key] = (byBrandWeek[key] || 0) + r[COL.totalEngagement]`:
initialize an absent key (appending, as JS object insertion order does) and
add into the single entry with that key. -/
def bumpKey (k : String) (v : ℚ) : List (String × ℚ) → List (String × ℚ)
  | [] => [(k, 0 + v)]
  | e :: rest => if e.1 = k then (e.1, e.2 + v) :: rest else e :: bumpKey k v rest

/-- The `byBrandWeek` totals of `renderMoversChart` (part_002 lines
295-301), keyed by brand and week over the concatenation of the week-A and
week-B row sets. -/
def byBrandWeek (rows : List Row2) : List (String × ℚ) :=
  rows.foldl (fun acc r => bumpKey (r.brand ++ "__" ++ r.week) r.totalEngagement acc) []

/-- Reading a per-brand-week total with the `|| 0` fallback of part_002
lines 307-308 (an absent key — and a stored 0 — both give 0). -/
def lookupOrZero (m : List (String × ℚ)) (k : String) : ℚ :=
  match List.lookup k m with
  | some v => v
  | none => 0

/-- The movers percentage of `renderMoversChart` (part_002 line 310):
`a === 0 ? (b === 0 ? 0 : 100) : ((b - a) / a) * 100`. In the exact
rational model the result is always finite, so the `isFinite` guard of
line 311 never rejects a mover. -/
def moverPct (a b : ℚ) : ℚ :=
  if a = 0 then (if b = 0 then 0 else 100) else (b - a) / a * 100

/-- The percentage plotted for one brand by `renderMoversChart` (part_002
lines 306-312): the week-A and week-B totals of that brand read from
`byBrandWeek` with the `|| 0` fallback, combined by `moverPct`. -/
def moverPctFor (rowsA rowsB : List Row2) (weekA weekB : String) (brand : String) : ℚ :=
  let m := byBrandWeek (rowsA ++ rowsB)
  let a := lookupOrZero m (brand ++ "__" ++ weekA)
  let b := lookupOrZero m (brand ++ "__" ++ weekB)
  moverPct a b

/-! ## Derived definitions and concrete fixtures -/

/-- Addition on `JsNum` is a commutative monoid with `fin 0` as neutral element,
which lets the grouped sums of `aggregateData` be rearranged. -/
instance : Add JsNum := ⟨JsNum.add⟩

instance : Zero JsNum := ⟨JsNum.fin 0⟩

instance : AddCommMonoid JsNum where
  add_assoc a b c := by
    show JsNum.add (JsNum.add a b) c = JsNum.add a (JsNum.add b c)
    cases a <;> cases b <;> cases c <;> simp [JsNum.add] <;> ring
  zero_add a := by
    show JsNum.add (JsNum.fin 0) a = a
    cases a <;> simp [JsNum.add]
  add_zero a := by
    show JsNum.add a (JsNum.fin 0) = a
    cases a <;> simp [JsNum.add]
  add_comm a b := by
    show JsNum.add a b = JsNum.add b a
    cases a <;> cases b <;> simp [JsNum.add] <;> ring
  nsmul := nsmulRec

/-- The engagement total of a `byType` grouping: the sum of the
per-category `eng` buckets. -/
def byTypeEngSum (l : List (String × TypeAgg)) : JsNum :=
  (l.map (fun e => e.2.eng)).sum

/-- Truthiness of the `Brand` cell of a part_001 row (the row-drop guard of
`parseRawData`). -/
def brandTruthy1 (r : Row1) : Bool :=
  match List.lookup "Brand" r with
  | some b => b ≠ ""
  | none => false

/-- A digit or a thousands-separator comma. -/
def isDigitOrComma (c : Char) : Bool := c.isDigit || c = ','

/-- A raw numeric literal in the sense of the spec: digits with optional
thousands separators and an optional trailing percent sign (at least one
digit). -/
def isNumericLit (s : String) : Bool :=
  let l := s.toList
  let body := if l.getLast? = some '%' then l.dropLast else l
  body.all isDigitOrComma && body.any Char.isDigit

/-- Fixture: the wide-layout scenario input of C3 — headers
`Brand, Type, 9-Nov, 16-Nov` and one data row. -/
def c3rows : List Row1 :=
  [[("Brand", "A"), ("Type", "X"), ("9-Nov", "100"), ("16-Nov", "200")]]

/-- Fixture: the same shape with an empty `Brand` cell. -/
def c3rowsNoBrand : List Row1 :=
  [[("Brand", ""), ("Type", "X"), ("9-Nov", "100"), ("16-Nov", "200")]]

/-- Fixture: two rows — one with a brand, one without — under two date
columns. -/
def c5rows : List Row1 :=
  [[("Brand", "A"), ("Type", "X"), ("9-Nov", "1"), ("16-Nov", "2")],
   [("Brand", ""), ("Type", "Y"), ("9-Nov", "3"), ("16-Nov", "4")]]

/-- Fixture: a one-row two-week wide CSV for exercising the aggregation
engine end to end. -/
def c1csv : List Row1 :=
  [[("Brand", "A"), ("Platform", "FB"), ("Type", "T"),
    ("2-Nov", "100"), ("9-Nov", "150")]]

/-- Fixture: the records parsed from `c1csv`. -/
def c1raw : List Rec1 := parseRawData c1csv

/-- Fixture: current-week filtered records of `c1csv`. -/
def c1curr : List Rec1 := currentData c1raw "9-Nov" ["T"] ["A"] 0

/-- Fixture: previous-week filtered records of `c1csv`. -/
def c1prev : List Rec1 := prevData c1raw (some "2-Nov") ["T"] ["A"]

/-- Fixture: the single comparison item produced for `c1csv`. -/
def c1item : Item1 :=
  mkItem1 c1prev (mkRec1 [("Brand", "A"), ("Platform", "FB"), ("Type", "T"),
    ("2-Nov", "100"), ("9-Nov", "150")] "A" "9-Nov")

/-- Fixture: a previous-week record whose engagement (5) is below the
threshold used in the C10 witness. -/
def c10prevRec : Rec1 :=
  ⟨"2-Nov", "A", some "FB", some "T", .fin 5, .fin 1, .fin 50, .fin 5⟩

/-- Fixture: a current-week record whose engagement (5) is below the
threshold used in the C10 witness. -/
def c10currRec : Rec1 :=
  ⟨"9-Nov", "A", some "FB", some "T", .fin 5, .fin 1, .fin 50, .fin 5⟩

/-- Fixture: one of two records tied on engagement. -/
def tieA : Rec0 := ⟨"A", "t", 1, 0, 0, 5, 0, 0, 0, 0, 0, 0⟩

/-- Fixture: the other record tied on engagement. -/
def tieB : Rec0 := ⟨"B", "t", 1, 0, 0, 5, 0, 0, 0, 0, 0, 0⟩

/-! ## Helper lemmas -/

theorem jsAdd_eq_add (a b : JsNum) : JsNum.add a b = a + b := rfl

theorem jsZero_eq : JsNum.fin 0 = (0 : JsNum) := rfl

theorem byTypeEngSum_nil : byTypeEngSum [] = 0 := rfl

theorem byTypeEngSum_cons (x : String × TypeAgg) (l : List (String × TypeAgg)) :
    byTypeEngSum (x :: l) = x.2.eng + byTypeEngSum l := by
  simp [byTypeEngSum]

theorem foldl_jsAdd {α : Type} (f : α → JsNum) (l : List α) (b : JsNum) :
    l.foldl (fun s x => JsNum.add s (f x)) b = b + (l.map f).sum := by
  induction l generalizing b with
  | nil => simp
  | cons x xs ih =>
      rw [List.foldl_cons, ih, List.map_cons, List.sum_cons, jsAdd_eq_add, add_assoc]

theorem byTypeEngSum_bump (k : String) (i : Item1) (acc : List (String × TypeAgg)) :
    byTypeEngSum (bumpByType k i acc) = byTypeEngSum acc + i.engagement := by
  induction acc with
  | nil =>
      rw [bumpByType, byTypeEngSum_cons, byTypeEngSum_nil]
      show JsNum.add (.fin 0) i.engagement + 0 = 0 + i.engagement
      rw [jsAdd_eq_add, jsZero_eq, zero_add, add_zero]
  | cons e rest ih =>
      rw [bumpByType]
      by_cases h : e.1 = k
      · rw [if_pos h, byTypeEngSum_cons, byTypeEngSum_cons]
        rw [show ((e.1, (⟨JsNum.add e.2.eng i.engagement, JsNum.add e.2.posts i.posts,
          e.2.count + 1⟩ : TypeAgg)) : String × TypeAgg).2.eng =
            JsNum.add e.2.eng i.engagement from rfl]
        rw [jsAdd_eq_add, add_right_comm]
      · rw [if_neg h, byTypeEngSum_cons, byTypeEngSum_cons, ih, ← add_assoc]

theorem byTypeEngSum_foldl (items : List Item1) (acc : List (String × TypeAgg)) :
    byTypeEngSum (items.foldl (fun a i => bumpByType (jsTemplateStr i.type) i a) acc) =
      byTypeEngSum acc + (items.map Item1.engagement).sum := by
  induction items generalizing acc with
  | nil => simp
  | cons i rest ih =>
      rw [List.foldl_cons, ih, byTypeEngSum_bump, List.map_cons, List.sum_cons,
        add_assoc, add_comm i.engagement]

theorem coerce1_shape (v : Option String) :
    (∃ q : ℚ, coerce1 v = .fin q) ∨ coerce1 v = .nan := by
  cases v with
  | none => exact Or.inl ⟨0, rfl⟩
  | some s =>
      by_cases h : s = ""
      · exact Or.inl ⟨0, by simp [coerce1, h]⟩
      · cases hp : parseFloatQ (stripCommas s) with
        | none => exact Or.inr (by simp [coerce1, h, hp])
        | some q => exact Or.inl ⟨q, by simp [coerce1, h, hp]⟩

theorem mem_parseRawData {rows : List Row1} {rec : Rec1}
    (h : rec ∈ parseRawData rows) :
    ∃ row ∈ rows, ∃ b, List.lookup "Brand" row = some b ∧ b ≠ "" ∧
      ∃ d ∈ dateColsOf rows, rec = mkRec1 row b d := by
  simp only [parseRawData, List.mem_flatMap] at h
  obtain ⟨row, hrow, hin⟩ := h
  refine ⟨row, hrow, ?_⟩
  cases hb : List.lookup "Brand" row with
  | none => simp [hb] at hin
  | some b =>
      by_cases hbe : b = ""
      · simp [hb, hbe] at hin
      · simp only [hb, if_neg hbe, List.mem_map] at hin
        obtain ⟨d, hd, hrec⟩ := hin
        exact ⟨b, rfl, hbe, d, hd, hrec.symm⟩

theorem parseRawData_flatLen (dc : List String) (rs : List Row1) :
    (rs.flatMap (fun row =>
      match List.lookup "Brand" row with
      | none => []
      | some b => if b = "" then [] else dc.map (mkRec1 row b))).length =
    rs.countP brandTruthy1 * dc.length := by
  induction rs with
  | nil => simp
  | cons r rest ih =>
      simp only [List.flatMap_cons, List.length_append, ih, List.countP_cons]
      cases hb : List.lookup "Brand" r with
      | none => simp [brandTruthy1, hb]
      | some b =>
          by_cases hbe : b = ""
          · simp [brandTruthy1, hb, hbe]
          · simp [brandTruthy1, hb, hbe, Nat.add_mul, Nat.add_comm]

theorem parseRawData_length (rows : List Row1) :
    (parseRawData rows).length = rows.countP brandTruthy1 * (dateColsOf rows).length :=
  parseRawData_flatLen (dateColsOf rows) rows

theorem prevLookup_mem {prev : List Rec1} {k : String} {p : Rec1}
    (h : prevLookup prev k = some p) : p ∈ prev := by
  have key : ∀ (l : List Rec1) (acc : Option Rec1),
      l.foldl (fun a q => if keyOf q.brand q.platform = k then some q else a) acc = some p →
      p ∈ l ∨ acc = some p := by
    intro l
    induction l with
    | nil => intro acc h; exact Or.inr h
    | cons q rest ih =>
        intro acc h
        rw [List.foldl_cons] at h
        rcases ih _ h with hm | hacc
        · exact Or.inl (List.mem_cons_of_mem _ hm)
        · have hacc' : (if keyOf q.brand q.platform = k then some q else acc) = some p := hacc
          by_cases hk : keyOf q.brand q.platform = k
          · rw [if_pos hk] at hacc'
            exact Or.inl (by rw [← Option.some_inj.mp hacc']; exact List.mem_cons_self _ _)
          · exact Or.inr (by rwa [if_neg hk] at hacc')
  rcases key prev none h with hm | hacc
  · exact hm
  · cases hacc

theorem mem_insertDesc {α : Type} (key : α → ℚ) (x a : α) (l : List α) :
    a ∈ insertDesc key x l ↔ a = x ∨ a ∈ l := by
  induction l with
  | nil => simp [insertDesc]
  | cons y ys ih =>
      rw [insertDesc]
      by_cases h : key x < key y
      · rw [if_pos h]
        simp only [List.mem_cons, ih]
        tauto
      · rw [if_neg h]
        simp only [List.mem_cons]

theorem pairwise_insertDesc {α : Type} (key : α → ℚ) (x : α) (l : List α)
    (h : l.Pairwise (fun a b => key b ≤ key a)) :
    (insertDesc key x l).Pairwise (fun a b => key b ≤ key a) := by
  induction l with
  | nil => simp [insertDesc]
  | cons y ys ih =>
      rw [insertDesc]
      rcases List.pairwise_cons.mp h with ⟨hy, hys⟩
      by_cases hlt : key x < key y
      · rw [if_pos hlt]
        refine List.pairwise_cons.mpr ⟨?_, ih hys⟩
        intro z hz
        rcases (mem_insertDesc key x z ys).mp hz with rfl | hzys
        · exact le_of_lt hlt
        · exact hy z hzys
      · rw [if_neg hlt]
        refine List.pairwise_cons.mpr ⟨?_, h⟩
        intro z hz
        rcases List.mem_cons.mp hz with rfl | hzys
        · exact le_of_not_lt hlt
        · exact le_trans (hy z hzys) (le_of_not_lt hlt)

theorem sortByDesc_pairwise {α : Type} (key : α → ℚ) (l : List α) :
    (sortByDesc key l).Pairwise (fun a b => key b ≤ key a) := by
  induction l with
  | nil => simp [sortByDesc]
  | cons x xs ih => exact pairwise_insertDesc key x _ ih

theorem filter_insertDesc {α : Type} (key : α → ℚ) (x : α) (l : List α) (k : ℚ) :
    (insertDesc key x l).filter (fun y => decide (key y = k)) =
      if key x = k then x :: l.filter (fun y => decide (key y = k))
      else l.filter (fun y => decide (key y = k)) := by
  induction l with
  | nil =>
      rw [insertDesc]
      by_cases hxk : key x = k <;> simp [List.filter, hxk]
  | cons y ys ih =>
      by_cases hlt : key x < key y
      · rw [insertDesc, if_pos hlt, List.filter_cons]
        by_cases hyk : key y = k
        · have hxk : ¬key x = k := fun e => absurd hlt (by rw [e, hyk]; exact lt_irrefl k)
          simp [hyk, hxk, ih, List.filter_cons]
        · simp [hyk, ih, List.filter_cons]
      · rw [insertDesc, if_neg hlt]
        by_cases hxk : key x = k <;> simp [List.filter_cons, hxk]

theorem sortByDesc_filter {α : Type} (key : α → ℚ) (l : List α) (k : ℚ) :
    (sortByDesc key l).filter (fun y => decide (key y = k)) =
      l.filter (fun y => decide (key y = k)) := by
  induction l with
  | nil => rfl
  | cons x xs ih =>
      rw [sortByDesc, filter_insertDesc, ih, List.filter_cons]
      by_cases hxk : key x = k <;> simp [hxk]

/-! ## Claim theorems -/

/-- C6: for every record set and filter handed to `aggregateData`, the sum
over all categories of the per-category engagement totals (`byType`) equals
the total engagement (`totalEng`) of the filtered set. -/
theorem c6_category_sum_invariant (curr prev : List Rec1) :
    byTypeEngSum ((aggregateData curr prev).byType) = (aggregateData curr prev).totalEng := by
  rw [show (aggregateData curr prev).byType = buildByType (curr.map (mkItem1 prev)) from rfl,
    show (aggregateData curr prev).totalEng =
      (curr.map (mkItem1 prev)).foldl (fun s i => JsNum.add s i.engagement) (.fin 0) from rfl,
    buildByType, byTypeEngSum_foldl, byTypeEngSum_nil, zero_add,
    foldl_jsAdd Item1.engagement, jsZero_eq, zero_add]

/-- C7 (amended): the top-N ranking sort is stable — records with equal
engagement appear in the output in their input order (the filter of any
engagement class is unchanged), and the ranking is sorted descending. As a
consequence, reversing the input order of two tied records reverses (not
preserves) their relative output order; see the counterexample. -/
theorem c7_stable_sort (l : List Rec0) :
    top5ByEngagement l = (sortByDesc (fun d => d.engagement) l).take 5 ∧
    (sortByDesc (fun d => d.engagement) l).Pairwise
      (fun a b => b.engagement ≤ a.engagement) ∧
    (top5ByEngagement l).Pairwise (fun a b => b.engagement ≤ a.engagement) ∧
    ∀ k : ℚ,
      (sortByDesc (fun d => d.engagement) l).filter (fun d => decide (d.engagement = k)) =
        l.filter (fun d => decide (d.engagement = k)) := by
  refine ⟨rfl, sortByDesc_pairwise _ l, ?_, sortByDesc_filter _ l⟩
  exact List.Pairwise.sublist (List.take_sublist 5 _) (sortByDesc_pairwise _ l)

/-- C7 counterexample: two records tied on engagement; reversing their input
order reverses their relative order in the top-N ranking, so "reversing
input order of records with equal engagement does not change their relative
output order" is false of the (stable) sort. -/
theorem c7_counterexample :
    top5ByEngagement [tieA, tieB] = [tieA, tieB] ∧
    top5ByEngagement [tieB, tieA] = [tieB, tieA] ∧ tieA ≠ tieB := by decide

/-- C5 (amended): a row without a truthy `Brand` cell is dropped silently by
the wide-layout normalizer, which emits (number of rows with a truthy brand)
× (number of date columns) records — equal to (input rows − 1) only when
exactly one row lacks a brand and there is exactly one date column; the
part_000 normalizer never drops rows at all. -/
theorem c5_brandless_row_drop :
    (∀ rows : List Row1,
      (parseRawData rows).length = rows.countP brandTruthy1 * (dateColsOf rows).length) ∧
    (∀ data : List Row0, (processData0 data).length = data.length) :=
  ⟨parseRawData_length, fun data => by simp [processData0]⟩

/-- C5 counterexample: two input rows (one brandless) under two date columns
produce 2 records, not (input rows − 1) = 1. -/
theorem c5_counterexample :
    (parseRawData c5rows).length = 2 ∧ c5rows.length - 1 = 1 := by decide

/-- C3 (amended): the wide-layout normalizer emits exactly one record per
(row-with-truthy-Brand × date column) pair — `period` (`date`) set to the
date header, `brand`, `type` and `platform` copied from the row; rows whose
`Brand` cell is missing or empty emit none. -/
theorem c3_wide_layout_records (rows : List Row1)
    (hb : ∀ r ∈ rows, brandTruthy1 r = true) :
    (parseRawData rows).length = rows.length * (dateColsOf rows).length ∧
    ∀ rec ∈ parseRawData rows, rec.date ∈ dateColsOf rows ∧
      ∃ row ∈ rows, List.lookup "Brand" row = some rec.brand ∧
        List.lookup "Type" row = rec.type ∧ List.lookup "Platform" row = rec.platform := by
  constructor
  · rw [parseRawData_length, List.countP_eq_length.mpr hb]
  · intro rec hrec
    obtain ⟨row, hrow, b, hlb, hbe, d, hd, hrecd⟩ := mem_parseRawData hrec
    subst hrecd
    refine ⟨hd, row, hrow, ?_, rfl, rfl⟩
    rw [hlb]
    rfl

/-- C3 witness: the scenario input (headers `Brand, Type, 9-Nov, 16-Nov`,
one data row) yields exactly 2 records, one per date column, with brand and
type copied from the row. -/
theorem c3_witness :
    ((parseRawData c3rows).length = c3rows.length * (dateColsOf c3rows).length ∧
     ∀ rec ∈ parseRawData c3rows, rec.date ∈ dateColsOf c3rows ∧
       ∃ row ∈ c3rows, List.lookup "Brand" row = some rec.brand ∧
         List.lookup "Type" row = rec.type ∧ List.lookup "Platform" row = rec.platform) ∧
    (parseRawData c3rows).length = 2 ∧
    (parseRawData c3rows).map (fun r => (r.date, r.brand, r.type)) =
      [("9-Nov", "A", some "X"), ("16-Nov", "A", some "X")] :=
  ⟨c3_wide_layout_records c3rows (by decide), by decide, by decide⟩

/-- C3 counterexample: the same headers with one data row whose `Brand` cell
is empty yield 0 records, not one per (row × date column) pair (which would
be 2). -/
theorem c3_counterexample :
    (parseRawData c3rowsNoBrand).length = 0 ∧ (dateColsOf c3rowsNoBrand).length = 2 ∧
    c3rowsNoBrand.length = 1 := by decide

/-- C4 (code bug): the CEO-summary percentage change of part_000 divides by
the previous-engagement total with no zero guard, so an empty filtered set —
and likewise a nonempty one whose totals are 0 — produces `NaN`, which the
claim (and the spec's error-handling design) says must be 0. -/
theorem c4_rate_divzero_bug :
    industryPctChange [] = JsNum.nan ∧
    industryPctChange (processData0 [[("Brand", CellVal.str "A")]]) = JsNum.nan := by
  constructor
  · simp [industryPctChange, totalEngagement0, prevEngagement0, JsNum.div, JsNum.mul]
  · have hdc : isDateCol "Brand" = false := by decide
    simp [industryPctChange, processData0, toRec0, totalEngagement0, prevEngagement0,
      num, numStr, orQ, truthyString, hdc, JsNum.div, JsNum.mul, List.lookup]

/-- C9: every record emitted by the wide-layout normalizer carries
synthesized counts — followers = 10 × engagement and
posts = ⌈engagement / 1000⌉ — never values taken from the source; the
record's single parsed metric is simultaneously its `value` and
`engagement`. -/
theorem c9_synthesized_fields (rows : List Row1) (rec : Rec1)
    (h : rec ∈ parseRawData rows) :
    rec.followers = JsNum.mul rec.engagement (.fin 10) ∧
    rec.posts = JsNum.ceil (JsNum.div rec.engagement (.fin 1000)) ∧
    rec.value = rec.engagement := by
  obtain ⟨row, _, b, _, _, d, _, hrec⟩ := mem_parseRawData h
  subst hrec
  exact ⟨rfl, rfl, rfl⟩

theorem prevData_subset {raw : List Rec1} {pw : Option String}
    {ts bs : List String} {p : Rec1} (h : p ∈ prevData raw pw ts bs) : p ∈ raw := by
  cases pw with
  | none => simp [prevData] at h
  | some w => exact (List.mem_filter.mp h).1

theorem mkItem1_engagement (prev : List Rec1) (c : Rec1) :
    (mkItem1 prev c).engagement = c.engagement := rfl

theorem mkItem1_followers (prev : List Rec1) (c : Rec1) :
    (mkItem1 prev c).followers = c.followers := rfl

theorem mkItem1_none (prev : List Rec1) (c : Rec1)
    (hp : prevLookup prev (keyOf c.brand c.platform) = none) :
    (mkItem1 prev c).prevEng = .fin 0 ∧ (mkItem1 prev c).prevFoll = .fin 0 ∧
    (mkItem1 prev c).wowEng = .fin 0 ∧ (mkItem1 prev c).wowFoll = .fin 0 := by
  simp [mkItem1, hp]

theorem mkItem1_some (prev : List Rec1) (c p : Rec1)
    (hp : prevLookup prev (keyOf c.brand c.platform) = some p) :
    (mkItem1 prev c).prevEng = p.engagement ∧
    (mkItem1 prev c).prevFoll = p.followers ∧
    (mkItem1 prev c).wowEng =
      (if JsNum.gt p.engagement (.fin 0) = true then
        JsNum.mul (JsNum.div (JsNum.sub c.engagement p.engagement) p.engagement) (.fin 100)
      else .fin 0) ∧
    (mkItem1 prev c).wowFoll =
      (if JsNum.gt p.followers (.fin 0) = true then
        JsNum.mul (JsNum.div (JsNum.sub c.followers p.followers) p.followers) (.fin 100)
      else .fin 0) := by
  simp [mkItem1, hp]

theorem jsSub_fin (a b : ℚ) : JsNum.sub (.fin a) (.fin b) = .fin (a - b) := by
  simp [JsNum.sub, JsNum.neg, JsNum.add, sub_eq_add_neg]

theorem wow_formula_fin {c p : ℚ} (hp : 0 < p) :
    JsNum.mul (JsNum.div (JsNum.sub (.fin c) (.fin p)) (.fin p)) (.fin 100) =
      .fin ((c - p) / p * 100) := by
  rw [jsSub_fin]
  simp [JsNum.div, JsNum.mul, ne_of_gt hp]

/-- For every item built by `aggregateData` from a filtered current week
and its previous-week lookup, the week-over-week engagement percentage
equals `(current − previous) / previous × 100` when the previous value is
strictly positive and 0 otherwise, always finite; the follower percentage
obeys the same formula. -/
theorem aggregateData_wow (csvRows : List Row1) (w : String) (pw : Option String)
    (ts bs : List String) (m : ℤ) (it : Item1)
    (hit : it ∈ (aggregateData (currentData (parseRawData csvRows) w ts bs m)
        (prevData (parseRawData csvRows) pw ts bs)).items) :
    ((∃ qe : ℚ, it.wowEng = .fin qe) ∧ (∃ qf : ℚ, it.wowFoll = .fin qf)) ∧
    (∀ c p : ℚ, it.engagement = .fin c → it.prevEng = .fin p → 0 < p →
      it.wowEng = .fin ((c - p) / p * 100)) ∧
    (JsNum.gt it.prevEng (.fin 0) = false → it.wowEng = .fin 0) ∧
    (∀ c p : ℚ, it.followers = .fin c → it.prevFoll = .fin p → 0 < p →
      it.wowFoll = .fin ((c - p) / p * 100)) ∧
    (JsNum.gt it.prevFoll (.fin 0) = false → it.wowFoll = .fin 0) := by
  obtain ⟨c, hc, rfl⟩ := List.mem_map.mp hit
  have hcraw : c ∈ parseRawData csvRows := (List.mem_filter.mp hc).1
  have hpred := (List.mem_filter.mp hc).2
  simp only [Bool.and_eq_true] at hpred
  have hge : JsNum.ge c.engagement (.fin (m : ℚ)) = true := hpred.2
  obtain ⟨row, hrow, b, hlb, hbe, d, hd, rfl⟩ := mem_parseRawData hcraw
  have hengdef : (mkRec1 row b d).engagement = coerce1 (List.lookup d row) := rfl
  have hengfin : ∃ q : ℚ, (mkRec1 row b d).engagement = .fin q := by
    rcases coerce1_shape (List.lookup d row) with ⟨q, hq⟩ | hq
    · exact ⟨q, by rw [hengdef, hq]⟩
    · rw [hengdef, hq] at hge
      simp [JsNum.ge] at hge
  obtain ⟨ce, hce⟩ := hengfin
  have hfoll : (mkRec1 row b d).followers = JsNum.mul ((mkRec1 row b d).engagement) (.fin 10) :=
    rfl
  have hfollfin : (mkRec1 row b d).followers = .fin (ce * 10) := by
    rw [hfoll, hce]; simp [JsNum.mul]
  set prevList := prevData (parseRawData csvRows) pw ts bs with hprevList
  cases hp : prevLookup prevList (keyOf (mkRec1 row b d).brand (mkRec1 row b d).platform) with
  | none =>
      obtain ⟨hpe, hpf, hwe, hwf⟩ := mkItem1_none prevList (mkRec1 row b d) hp
      refine ⟨⟨⟨0, hwe⟩, ⟨0, hwf⟩⟩, ?_, fun _ => hwe, ?_, fun _ => hwf⟩
      · intro c0 p0 _ hp0 hpos
        rw [hpe] at hp0
        have h0 : (0 : ℚ) = p0 := by injection hp0
        exact absurd hpos (by rw [← h0]; exact lt_irrefl 0)
      · intro c0 p0 _ hp0 hpos
        rw [hpf] at hp0
        have h0 : (0 : ℚ) = p0 := by injection hp0
        exact absurd hpos (by rw [← h0]; exact lt_irrefl 0)
  | some p =>
      obtain ⟨hpe, hpf, hwe, hwf⟩ := mkItem1_some prevList (mkRec1 row b d) p hp
      have hpmem : p ∈ parseRawData csvRows := prevData_subset (hprevList ▸ prevLookup_mem hp)
      obtain ⟨prow, _, pb, _, _, pd, _, hpr⟩ := mem_parseRawData hpmem
      have hpengdef : p.engagement = coerce1 (List.lookup pd prow) := by rw [hpr]; rfl
      have hpfolldef : p.followers = JsNum.mul p.engagement (.fin 10) := by rw [hpr]; rfl

      have hpengshape : (∃ q : ℚ, p.engagement = .fin q) ∨ p.engagement = .nan := by
        rw [hpengdef]; exact coerce1_shape _
      have hpfollshape : (∃ q : ℚ, p.followers = .fin q) ∨ p.followers = .nan := by
        rcases hpengshape with ⟨q, hq⟩ | hq
        · exact Or.inl ⟨q * 10, by rw [hpfolldef, hq]; simp [JsNum.mul]⟩
        · exact Or.inr (by rw [hpfolldef, hq]; simp [JsNum.mul])
      have weFin : ∃ qe : ℚ, (mkItem1 prevList (mkRec1 row b d)).wowEng = .fin qe := by
        by_cases hg : JsNum.gt p.engagement (.fin 0) = true
        · rcases hpengshape with ⟨pe, hpe'⟩ | hnan
          · have hpos : 0 < pe := by
              rw [hpe'] at hg; simpa [JsNum.gt] using hg
            refine ⟨(ce - pe) / pe * 100, ?_⟩
            rw [hwe, if_pos hg, hpe', hce, wow_formula_fin hpos]
          · rw [hnan] at hg; simp [JsNum.gt] at hg
        · exact ⟨0, by rw [hwe, if_neg hg]⟩
      have wfFin : ∃ qf : ℚ, (mkItem1 prevList (mkRec1 row b d)).wowFoll = .fin qf := by
        by_cases hg : JsNum.gt p.followers (.fin 0) = true
        · rcases hpfollshape with ⟨pf, hpf'⟩ | hnan
          · have hpos : 0 < pf := by
              rw [hpf'] at hg; simpa [JsNum.gt] using hg
            refine ⟨(ce * 10 - pf) / pf * 100, ?_⟩
            rw [hwf, if_pos hg, hpf', hfollfin, wow_formula_fin hpos]
          · rw [hnan] at hg; simp [JsNum.gt] at hg
        · exact ⟨0, by rw [hwf, if_neg hg]⟩
      refine ⟨⟨weFin, wfFin⟩, ?_, ?_, ?_, ?_⟩
      · intro c0 p0 hc0 hp0 hpos
        rw [mkItem1_engagement] at hc0
        rw [hpe] at hp0
        have hg : JsNum.gt p.engagement (.fin 0) = true := by
          rw [hp0]; simp [JsNum.gt, hpos]
        rw [hwe, if_pos hg, hp0, hc0, wow_formula_fin hpos]
      · intro hgf
        rw [hpe] at hgf
        rw [hwe, if_neg (by rw [hgf]; simp)]
      · intro c0 p0 hc0 hp0 hpos
        rw [mkItem1_followers] at hc0
        rw [hpf] at hp0
        have hg : JsNum.gt p.followers (.fin 0) = true := by
          rw [hp0]; simp [JsNum.gt, hpos]
        rw [hwf, if_pos hg, hp0, hc0, wow_formula_fin hpos]
      · intro hgf
        rw [hpf] at hgf
        rw [hwf, if_neg (by rw [hgf]; simp)]

/-- C1 counterexample: the movers chart of part_002 — cited by the claim —
does not map a zero baseline to 0: a brand absent in week A (total 0) with
week-B total 100 is plotted at 100%, where the claim requires 0. -/
theorem c1_counterexample :
    moverPctFor [] [⟨"X", "16-Nov", 100⟩] "9-Nov" "16-Nov" "X" = 100 ∧ (100 : ℚ) ≠ 0 := by
  constructor
  · have hdef : moverPctFor [] [⟨"X", "16-Nov", 100⟩] "9-Nov" "16-Nov" "X" =
        moverPct 0 (0 + 100) := rfl
    rw [hdef]
    simp only [moverPct]
    norm_num
  · norm_num

/-- C1 (amended): the aggregation engine's per-record matching (part_001
`aggregateData`) computes the week-over-week percentage as
`(current − previous) / previous × 100` when the previous value is strictly
positive and 0 otherwise, always finite and never `NaN`/`Infinity`, with
the same formula for follower growth; the brand-level movers chart of
part_002, by contrast, divides by the week-A total whenever it is nonzero
and maps a zero week-A baseline to 100 when the week-B total is nonzero
(0 only when both totals are 0). -/
theorem c1_wow_formula_amended :
    (∀ (csvRows : List Row1) (w : String) (pw : Option String) (ts bs : List String)
      (m : ℤ) (it : Item1),
      it ∈ (aggregateData (currentData (parseRawData csvRows) w ts bs m)
          (prevData (parseRawData csvRows) pw ts bs)).items →
      ((∃ qe : ℚ, it.wowEng = .fin qe) ∧ (∃ qf : ℚ, it.wowFoll = .fin qf)) ∧
      (∀ c p : ℚ, it.engagement = .fin c → it.prevEng = .fin p → 0 < p →
        it.wowEng = .fin ((c - p) / p * 100)) ∧
      (JsNum.gt it.prevEng (.fin 0) = false → it.wowEng = .fin 0) ∧
      (∀ c p : ℚ, it.followers = .fin c → it.prevFoll = .fin p → 0 < p →
        it.wowFoll = .fin ((c - p) / p * 100)) ∧
      (JsNum.gt it.prevFoll (.fin 0) = false → it.wowFoll = .fin 0)) ∧
    (∀ (rowsA rowsB : List Row2) (weekA weekB brand : String) (a b : ℚ),
      lookupOrZero (byBrandWeek (rowsA ++ rowsB)) (brand ++ "__" ++ weekA) = a →
      lookupOrZero (byBrandWeek (rowsA ++ rowsB)) (brand ++ "__" ++ weekB) = b →
      (a ≠ 0 → moverPctFor rowsA rowsB weekA weekB brand = (b - a) / a * 100) ∧
      (a = 0 → b ≠ 0 → moverPctFor rowsA rowsB weekA weekB brand = 100) ∧
      (a = 0 → b = 0 → moverPctFor rowsA rowsB weekA weekB brand = 0)) := by
  constructor
  · exact aggregateData_wow
  · intro rowsA rowsB weekA weekB brand a b ha hb
    have hdef : moverPctFor rowsA rowsB weekA weekB brand =
        moverPct (lookupOrZero (byBrandWeek (rowsA ++ rowsB)) (brand ++ "__" ++ weekA))
          (lookupOrZero (byBrandWeek (rowsA ++ rowsB)) (brand ++ "__" ++ weekB)) := rfl
    rw [hdef, ha, hb]
    simp only [moverPct]
    refine ⟨fun hne => by rw [if_neg hne], fun h0 hbne => ?_, fun h0 hb0 => ?_⟩
    · rw [if_pos h0, if_neg hbne]
    · rw [if_pos h0, if_pos hb0]

/-! ## Digit-string parsing lemmas (for the coercion claims) -/

theorem digit_not_ws {c : Char} (h : c.isDigit = true) : c.isWhitespace = false := by
  by_cases h1 : c = ' '
  · subst h1; exact absurd h (by decide)
  by_cases h2 : c = '\t'
  · subst h2; exact absurd h (by decide)
  by_cases h3 : c = '\r'
  · subst h3; exact absurd h (by decide)
  by_cases h4 : c = '\n'
  · subst h4; exact absurd h (by decide)
  simp [Char.isWhitespace, h1, h2, h3, h4]

theorem digit_ne_minus {c : Char} (h : c.isDigit = true) : c ≠ '-' := by
  rintro rfl; exact absurd h (by decide)

theorem digit_ne_plus {c : Char} (h : c.isDigit = true) : c ≠ '+' := by
  rintro rfl; exact absurd h (by decide)

theorem digit_ne_comma {c : Char} (h : c.isDigit = true) : c ≠ ',' := by
  rintro rfl; exact absurd h (by decide)

theorem digit_ne_pct {c : Char} (h : c.isDigit = true) : c ≠ '%' := by
  rintro rfl; exact absurd h (by decide)

theorem takeWhile_append_all {p : Char → Bool} {l rest : List Char}
    (hl : ∀ c ∈ l, p c = true)
    (hr : rest = [] ∨ ∃ c t, rest = c :: t ∧ p c = false) :
    (l ++ rest).takeWhile p = l ∧ (l ++ rest).dropWhile p = rest := by
  induction l with
  | nil =>
      rcases hr with rfl | ⟨c, t, rfl, hc⟩
      · exact ⟨rfl, rfl⟩
      · simp [List.takeWhile_cons, List.dropWhile_cons, hc]
  | cons a l' ih =>
      have ha := hl a (List.mem_cons_self a l')
      have ih' := ih (fun c hc => hl c (List.mem_cons_of_mem _ hc))
      simp [List.takeWhile_cons, List.dropWhile_cons, ha, ih'.1, ih'.2]

theorem pfCore_digits {ds rest : List Char} (hne : ds ≠ [])
    (hd : ∀ c ∈ ds, c.isDigit = true) (hr : rest = [] ∨ rest = ['%']) :
    pfCore (ds ++ rest) = some (digitsVal ds) := by
  have hr' : rest = [] ∨ ∃ c t, rest = c :: t ∧ Char.isDigit c = false := by
    rcases hr with rfl | rfl
    · exact Or.inl rfl
    · exact Or.inr ⟨'%', [], rfl, by decide⟩
  obtain ⟨ht, hdrop⟩ := takeWhile_append_all hd hr'
  rcases hr with rfl | rfl
  · simp only [pfCore, pfMantissa, ht, hdrop]
    simp [hne, pfExponentOf]
  · simp only [pfCore, pfMantissa, ht, hdrop]
    simp [hne, pfExponentOf]

theorem parseFloatQ_digits {ds rest : List Char} (hne : ds ≠ [])
    (hd : ∀ c ∈ ds, c.isDigit = true) (hr : rest = [] ∨ rest = ['%']) :
    parseFloatQ (String.mk (ds ++ rest)) = some (digitsVal ds) := by
  obtain ⟨a, ds', rfl⟩ : ∃ a t, ds = a :: t := by
    cases ds with
    | nil => exact absurd rfl hne
    | cons a t => exact ⟨a, t, rfl⟩
  have ha := hd a (List.mem_cons_self a ds')
  have hws : a.isWhitespace = false := digit_not_ws ha
  have htl : (String.mk ((a :: ds') ++ rest)).toList = (a :: ds') ++ rest := rfl
  rw [parseFloatQ, htl]
  rw [show ((a :: ds') ++ rest).dropWhile Char.isWhitespace = (a :: ds') ++ rest by
    simp [List.dropWhile_cons, hws]]
  simp only [List.cons_append]
  rw [if_neg (by simpa using digit_ne_minus ha), if_neg (by simpa using digit_ne_plus ha)]
  exact pfCore_digits hne hd hr

theorem coerce1_digits (s : String) (hne : s.toList ≠ [])
    (hd : ∀ c ∈ s.toList, c.isDigit = true) :
    coerce1 (some s) = .fin (digitsVal s.toList) := by
  have hse : s ≠ "" := by
    intro h; subst h; exact hne rfl
  have hstrip : stripCommas s = String.mk s.toList := by
    rw [stripCommas]
    congr 1
    exact List.filter_eq_self.mpr (fun c hc => by
      simpa using digit_ne_comma (hd c hc))
  have hmk : String.mk s.toList = String.mk (s.toList ++ []) := by simp
  rw [coerce1, if_neg hse, hstrip, hmk,
    parseFloatQ_digits hne hd (Or.inl rfl)]
  rfl

/-- C2 (amended): part_000's coercion (`num`/`numStr`) strips commas and
percent signs and maps empty input and parse failures to 0; part_001's
wide-layout coercion strips only commas and maps empty input to 0 but a
non-empty unparseable cell to `NaN` — the two agree, with a non-negative
finite (natural) result, on every raw numeric string of digits with
optional thousands separators and an optional trailing percent sign, and
both send the empty/missing value to 0. -/
theorem c2_coercion_amended :
    (∀ s : String, isNumericLit s = true →
      ∃ n : ℕ, numStr s = (n : ℚ) ∧ coerce1 (some s) = .fin ((n : ℚ))) ∧
    numStr "" = 0 ∧ coerce1 none = .fin 0 ∧ coerce1 (some "") = .fin 0 := by
  refine ⟨?_, rfl, rfl, rfl⟩
  intro s h
  rw [isNumericLit, Bool.and_eq_true, List.all_eq_true, List.any_eq_true] at h
  obtain ⟨hall, hany⟩ := h
  set l := s.toList with hl
  set body := if l.getLast? = some '%' then l.dropLast else l with hbody
  have hdecomp : ∃ tail, l = body ++ tail ∧ (tail = [] ∨ tail = ['%']) := by
    by_cases hpc : l.getLast? = some '%'
    · obtain ⟨ys, hys⟩ := List.getLast?_eq_some_iff.mp hpc
      refine ⟨['%'], ?_, Or.inr rfl⟩
      rw [hbody, if_pos hpc, hys, List.dropLast_concat]
    · exact ⟨[], by rw [hbody, if_neg hpc]; simp, Or.inl rfl⟩
  obtain ⟨tail, htail, htl⟩ := hdecomp
  set ds := body.filter (fun c => c ≠ ',') with hds
  have hdsdig : ∀ c ∈ ds, c.isDigit = true := by
    intro c hc
    rw [hds] at hc
    obtain ⟨hcb, hcne⟩ := List.mem_filter.mp hc
    have := hall c hcb
    rw [isDigitOrComma, Bool.or_eq_true] at this
    rcases this with hdig | hcom
    · exact hdig
    · exact absurd (by simpa using hcom) (by simpa using hcne)
  have hdsne : ds ≠ [] := by
    obtain ⟨c, hcb, hcdig⟩ := hany
    have : c ∈ ds := by
      rw [hds]
      exact List.mem_filter.mpr ⟨hcb, by simpa using digit_ne_comma hcdig⟩
    intro he
    rw [he] at this
    exact absurd this (List.not_mem_nil c)
  have hstripC : stripCommas s = String.mk (ds ++ tail) := by
    rw [stripCommas, ← hl, htail, List.filter_append, hds]
    congr 1
    rcases htl with rfl | rfl
    · rfl
    · rfl
  have hstripCP : stripCommasPct s = String.mk ds := by
    rw [stripCommasPct, ← hl, htail, List.filter_append, hds]
    have hbodyf : body.filter (fun c => decide (c ≠ ',' ∧ c ≠ '%')) =
        body.filter (fun c => c ≠ ',') := by
      refine List.filter_congr (fun c hcb => ?_)
      have := hall c hcb
      rw [isDigitOrComma, Bool.or_eq_true] at this
      rcases this with hdig | hcom
      · simp [digit_ne_comma hdig, digit_ne_pct hdig]
      · have : c = ',' := by simpa using hcom
        subst this
        simp
    have htailf : tail.filter (fun c => decide (c ≠ ',' ∧ c ≠ '%')) = [] := by
      rcases htl with rfl | rfl
      · rfl
      · rfl
    rw [show (fun c => decide (c ≠ ',' ∧ c ≠ '%')) = fun c =>
        (decide (c ≠ ',' ∧ c ≠ '%') : Bool) from rfl] at hbodyf htailf ⊢
    rw [hbodyf, htailf, List.append_nil]
  have hse : s ≠ "" := by
    intro h
    rw [h] at hl
    have : l = [] := hl.symm ▸ rfl
    rw [htail] at this
    obtain ⟨c, hcb, hcdig⟩ := hany
    rw [List.append_eq_nil] at this
    rw [this.1] at hcb
    exact absurd hcb (List.not_mem_nil c)
  refine ⟨digitsVal ds, ?_, ?_⟩
  · rw [numStr, if_neg hse, hstripCP,
      show String.mk ds = String.mk (ds ++ []) from by simp,
      parseFloatQ_digits hdsne hdsdig (Or.inl rfl)]
    rfl
  · rw [coerce1, if_neg hse, hstripC, parseFloatQ_digits hdsne hdsdig htl]
    rfl

/-- C2 counterexample: on the non-empty unparseable cell `"N/A"` the two
coercions disagree — part_000's yields 0, part_001's yields `NaN` — so the
coercion rule is not applied identically in both layouts and parse failure
does not resolve to 0 in the wide layout. -/
theorem c2_counterexample :
    numStr "N/A" = 0 ∧ coerce1 (some "N/A") = JsNum.nan ∧ JsNum.nan ≠ JsNum.fin 0 := by
  refine ⟨by decide, by decide, by decide⟩

/-- C2 witness: the numeric literal `"1,234%"` satisfies the guard and both
coercions parse it to the same non-negative natural value. -/
theorem c2_witness :
    isNumericLit "1,234%" = true ∧
    (∃ n : ℕ, numStr "1,234%" = (n : ℚ) ∧ coerce1 (some "1,234%") = .fin ((n : ℚ))) :=
  ⟨by decide, c2_coercion_amended.1 "1,234%" (by decide)⟩

/-- C10: the minimum-engagement threshold applies only to current-period
records — membership in `currentData` requires `engagement ≥ minEng`, while
membership in `prevData` is characterized by week, type and brand alone, so
below-threshold previous-period records still enter the comparison lookup. -/
theorem c10_threshold_current_only (raw : List Rec1) (w pw : String)
    (ts bs : List String) (m : ℤ) (d : Rec1) (hd : d ∈ raw) :
    (d ∈ prevData raw (some pw) ts bs ↔
      (d.date = pw ∧ includesOpt ts d.type = true ∧ bs.contains d.brand = true)) ∧
    (d ∈ currentData raw w ts bs m ↔
      (d.date = w ∧ includesOpt ts d.type = true ∧ bs.contains d.brand = true ∧
        JsNum.ge d.engagement (.fin ((m : ℚ))) = true)) := by
  constructor
  · rw [prevData, List.mem_filter]
    simp [hd, and_assoc]
  · rw [currentData, List.mem_filter]
    simp [hd, and_assoc]

/-- C10 witness: with threshold 10, a previous-week record with engagement 5
is in the comparison set while a current-week record with engagement 5 is
excluded. -/
theorem c10_witness :
    ((c10prevRec ∈ prevData [c10prevRec, c10currRec] (some "2-Nov") ["T"] ["A"] ↔
       (c10prevRec.date = "2-Nov" ∧ includesOpt ["T"] c10prevRec.type = true ∧
         ["A"].contains c10prevRec.brand = true)) ∧
     (c10prevRec ∈ currentData [c10prevRec, c10currRec] "9-Nov" ["T"] ["A"] 10 ↔
       (c10prevRec.date = "9-Nov" ∧ includesOpt ["T"] c10prevRec.type = true ∧
         ["A"].contains c10prevRec.brand = true ∧
         JsNum.ge c10prevRec.engagement (.fin ((10 : ℤ) : ℚ)) = true))) ∧
    c10prevRec ∈ prevData [c10prevRec, c10currRec] (some "2-Nov") ["T"] ["A"] ∧
    c10currRec ∉ currentData [c10prevRec, c10currRec] "9-Nov" ["T"] ["A"] 10 ∧
    JsNum.ge c10currRec.engagement (.fin ((10 : ℤ) : ℚ)) = false :=
  ⟨c10_threshold_current_only [c10prevRec, c10currRec] "9-Nov" "2-Nov" ["T"] ["A"] 10
      c10prevRec (by decide),
    by decide, by decide, by decide⟩

/-- C9 witness: the first record of the scenario input has followers
10 × engagement and posts ⌈engagement / 1000⌉. -/
theorem c9_witness :
    (mkRec1 [("Brand", "A"), ("Type", "X"), ("9-Nov", "100"), ("16-Nov", "200")] "A" "9-Nov")
      ∈ parseRawData c3rows ∧
    ((mkRec1 [("Brand", "A"), ("Type", "X"), ("9-Nov", "100"), ("16-Nov", "200")] "A"
        "9-Nov").followers =
      JsNum.mul (mkRec1 [("Brand", "A"), ("Type", "X"), ("9-Nov", "100"), ("16-Nov", "200")]
        "A" "9-Nov").engagement (.fin 10) ∧
     (mkRec1 [("Brand", "A"), ("Type", "X"), ("9-Nov", "100"), ("16-Nov", "200")] "A"
        "9-Nov").posts =
      JsNum.ceil (JsNum.div (mkRec1 [("Brand", "A"), ("Type", "X"), ("9-Nov", "100"),
        ("16-Nov", "200")] "A" "9-Nov").engagement (.fin 1000)) ∧
     (mkRec1 [("Brand", "A"), ("Type", "X"), ("9-Nov", "100"), ("16-Nov", "200")] "A"
        "9-Nov").value =
      (mkRec1 [("Brand", "A"), ("Type", "X"), ("9-Nov", "100"), ("16-Nov", "200")] "A"
        "9-Nov").engagement) :=
  have hmem : (mkRec1 [("Brand", "A"), ("Type", "X"), ("9-Nov", "100"), ("16-Nov", "200")]
      "A" "9-Nov") ∈ parseRawData c3rows := by
    rw [show parseRawData c3rows =
      [mkRec1 [("Brand", "A"), ("Type", "X"), ("9-Nov", "100"), ("16-Nov", "200")] "A" "9-Nov",
       mkRec1 [("Brand", "A"), ("Type", "X"), ("9-Nov", "100"), ("16-Nov", "200")] "A" "16-Nov"]
      from rfl]
    exact List.mem_cons_self _ _
  ⟨hmem, c9_synthesized_fields c3rows _ hmem⟩

theorem coerce1_150 : coerce1 (some "150") = .fin 150 := by
  have h := coerce1_digits "150" (by decide) (by decide)
  rw [h, show digitsVal "150".toList = 150 from by decide]
  norm_num

theorem coerce1_100 : coerce1 (some "100") = .fin 100 := by
  have h := coerce1_digits "100" (by decide) (by decide)
  rw [h, show digitsVal "100".toList = 100 from by decide]
  norm_num

/-- C1 witness: in the two-week fixture the single comparison item has WoW
engagement `(150 − 100) / 100 × 100 = 50%` and the same follower growth;
and in a two-row movers fixture with a nonzero week-A baseline the part_002
chart plots the strict `(b − a) / a × 100` change, here 100%. -/
theorem c1_witness :
    c1item ∈ (aggregateData c1curr c1prev).items ∧
    (((∃ qe : ℚ, c1item.wowEng = .fin qe) ∧ (∃ qf : ℚ, c1item.wowFoll = .fin qf)) ∧
     (∀ c p : ℚ, c1item.engagement = .fin c → c1item.prevEng = .fin p → 0 < p →
       c1item.wowEng = .fin ((c - p) / p * 100)) ∧
     (JsNum.gt c1item.prevEng (.fin 0) = false → c1item.wowEng = .fin 0) ∧
     (∀ c p : ℚ, c1item.followers = .fin c → c1item.prevFoll = .fin p → 0 < p →
       c1item.wowFoll = .fin ((c - p) / p * 100)) ∧
     (JsNum.gt c1item.prevFoll (.fin 0) = false → c1item.wowFoll = .fin 0)) ∧
    (c1item.wowEng = .fin 50 ∧ c1item.wowFoll = .fin 50) ∧
    moverPctFor [⟨"X", "9-Nov", 50⟩] [⟨"X", "16-Nov", 100⟩] "9-Nov" "16-Nov" "X" =
      ((100 : ℚ) - 50) / 50 * 100 ∧
    ((100 : ℚ) - 50) / 50 * 100 = 100 := by
  have h9eng : (mkRec1 [("Brand", "A"), ("Platform", "FB"), ("Type", "T"),
      ("2-Nov", "100"), ("9-Nov", "150")] "A" "9-Nov").engagement = .fin 150 := by
    rw [show (mkRec1 [("Brand", "A"), ("Platform", "FB"), ("Type", "T"),
      ("2-Nov", "100"), ("9-Nov", "150")] "A" "9-Nov").engagement =
        coerce1 (some "150") from rfl, coerce1_150]
  have h2eng : (mkRec1 [("Brand", "A"), ("Platform", "FB"), ("Type", "T"),
      ("2-Nov", "100"), ("9-Nov", "150")] "A" "2-Nov").engagement = .fin 100 := by
    rw [show (mkRec1 [("Brand", "A"), ("Platform", "FB"), ("Type", "T"),
      ("2-Nov", "100"), ("9-Nov", "150")] "A" "2-Nov").engagement =
        coerce1 (some "100") from rfl, coerce1_100]
  have h9mem : mkRec1 [("Brand", "A"), ("Platform", "FB"), ("Type", "T"),
      ("2-Nov", "100"), ("9-Nov", "150")] "A" "9-Nov" ∈ c1raw := by
    rw [show c1raw = [mkRec1 [("Brand", "A"), ("Platform", "FB"), ("Type", "T"),
      ("2-Nov", "100"), ("9-Nov", "150")] "A" "2-Nov",
      mkRec1 [("Brand", "A"), ("Platform", "FB"), ("Type", "T"),
      ("2-Nov", "100"), ("9-Nov", "150")] "A" "9-Nov"] from rfl]
    exact List.mem_cons_of_mem _ (List.mem_cons_self _ _)
  have h9curr : mkRec1 [("Brand", "A"), ("Platform", "FB"), ("Type", "T"),
      ("2-Nov", "100"), ("9-Nov", "150")] "A" "9-Nov" ∈ c1curr := by
    rw [show c1curr = currentData c1raw "9-Nov" ["T"] ["A"] 0 from rfl, currentData]
    refine List.mem_filter.mpr ⟨h9mem, ?_⟩
    rw [Bool.and_eq_true, Bool.and_eq_true, Bool.and_eq_true]
    refine ⟨⟨⟨by decide, by decide⟩, by decide⟩, ?_⟩
    rw [h9eng]
    rw [show JsNum.ge (.fin 150) (.fin ((0 : ℤ) : ℚ)) = decide (((0 : ℤ) : ℚ) ≤ 150) from rfl]
    norm_num
  have hitm : c1item ∈ (aggregateData c1curr c1prev).items := by
    show c1item ∈ c1curr.map (mkItem1 c1prev)
    exact List.mem_map_of_mem _ h9curr
  have hprevlist : c1prev = [mkRec1 [("Brand", "A"), ("Platform", "FB"), ("Type", "T"),
      ("2-Nov", "100"), ("9-Nov", "150")] "A" "2-Nov"] := rfl
  have hkey : prevLookup c1prev (keyOf (mkRec1 [("Brand", "A"), ("Platform", "FB"),
      ("Type", "T"), ("2-Nov", "100"), ("9-Nov", "150")] "A" "9-Nov").brand
      (mkRec1 [("Brand", "A"), ("Platform", "FB"), ("Type", "T"),
      ("2-Nov", "100"), ("9-Nov", "150")] "A" "9-Nov").platform) =
      some (mkRec1 [("Brand", "A"), ("Platform", "FB"), ("Type", "T"),
      ("2-Nov", "100"), ("9-Nov", "150")] "A" "2-Nov") := by
    rw [hprevlist]
    rfl
  obtain ⟨hpe, hpf, hwe, hwf⟩ := mkItem1_some c1prev _ _ hkey
  have hgt : JsNum.gt (mkRec1 [("Brand", "A"), ("Platform", "FB"), ("Type", "T"),
      ("2-Nov", "100"), ("9-Nov", "150")] "A" "2-Nov").engagement (.fin 0) = true := by
    rw [h2eng, show JsNum.gt (.fin 100) (.fin 0) = decide ((0 : ℚ) < 100) from rfl]
    norm_num
  have hweval : c1item.wowEng = .fin 50 := by
    rw [show c1item = mkItem1 c1prev (mkRec1 [("Brand", "A"), ("Platform", "FB"),
      ("Type", "T"), ("2-Nov", "100"), ("9-Nov", "150")] "A" "9-Nov") from rfl, hwe,
      if_pos hgt, h2eng, h9eng, wow_formula_fin (by norm_num : (0:ℚ) < 100)]
    norm_num
  have h9foll : (mkRec1 [("Brand", "A"), ("Platform", "FB"), ("Type", "T"),
      ("2-Nov", "100"), ("9-Nov", "150")] "A" "9-Nov").followers = .fin 1500 := by
    rw [show (mkRec1 [("Brand", "A"), ("Platform", "FB"), ("Type", "T"),
      ("2-Nov", "100"), ("9-Nov", "150")] "A" "9-Nov").followers =
      JsNum.mul ((mkRec1 [("Brand", "A"), ("Platform", "FB"), ("Type", "T"),
      ("2-Nov", "100"), ("9-Nov", "150")] "A" "9-Nov").engagement) (.fin 10) from rfl,
      h9eng]
    rw [show JsNum.mul (.fin 150) (.fin 10) = .fin (150 * 10) from rfl]
    norm_num
  have h2foll : (mkRec1 [("Brand", "A"), ("Platform", "FB"), ("Type", "T"),
      ("2-Nov", "100"), ("9-Nov", "150")] "A" "2-Nov").followers = .fin 1000 := by
    rw [show (mkRec1 [("Brand", "A"), ("Platform", "FB"), ("Type", "T"),
      ("2-Nov", "100"), ("9-Nov", "150")] "A" "2-Nov").followers =
      JsNum.mul ((mkRec1 [("Brand", "A"), ("Platform", "FB"), ("Type", "T"),
      ("2-Nov", "100"), ("9-Nov", "150")] "A" "2-Nov").engagement) (.fin 10) from rfl,
      h2eng]
    rw [show JsNum.mul (.fin 100) (.fin 10) = .fin (100 * 10) from rfl]
    norm_num
  have hgtf : JsNum.gt (mkRec1 [("Brand", "A"), ("Platform", "FB"), ("Type", "T"),
      ("2-Nov", "100"), ("9-Nov", "150")] "A" "2-Nov").followers (.fin 0) = true := by
    rw [h2foll, show JsNum.gt (.fin 1000) (.fin 0) = decide ((0 : ℚ) < 1000) from rfl]
    norm_num
  have hwfeval : c1item.wowFoll = .fin 50 := by
    rw [show c1item = mkItem1 c1prev (mkRec1 [("Brand", "A"), ("Platform", "FB"),
      ("Type", "T"), ("2-Nov", "100"), ("9-Nov", "150")] "A" "9-Nov") from rfl, hwf,
      if_pos hgtf, h2foll, h9foll, wow_formula_fin (by norm_num : (0:ℚ) < 1000)]
    norm_num
  have hA : lookupOrZero (byBrandWeek ([⟨"X", "9-Nov", 50⟩] ++ [⟨"X", "16-Nov", 100⟩]))
      ("X" ++ "__" ++ "9-Nov") = 50 := by
    show (0 : ℚ) + 50 = 50
    norm_num
  have hB : lookupOrZero (byBrandWeek ([⟨"X", "9-Nov", 50⟩] ++ [⟨"X", "16-Nov", 100⟩]))
      ("X" ++ "__" ++ "16-Nov") = 100 := by
    show (0 : ℚ) + 100 = 100
    norm_num
  have hmov := (c1_wow_formula_amended.2 [⟨"X", "9-Nov", 50⟩] [⟨"X", "16-Nov", 100⟩]
    "9-Nov" "16-Nov" "X" 50 100 hA hB).1 (by norm_num)
  exact ⟨hitm, c1_wow_formula_amended.1 [[("Brand", "A"), ("Platform", "FB"), ("Type", "T"),
    ("2-Nov", "100"), ("9-Nov", "150")]] "9-Nov" (some "2-Nov") ["T"] ["A"] 0 c1item hitm,
    ⟨hweval, hwfeval⟩, hmov, by norm_num⟩

theorem toRec0_demoRow (s : ℕ → ℚ) (i : ℕ) (b t : String) (hb : b ≠ "") (ht : t ≠ "")
    (h4 : 0 ≤ s (9 * i + 3)) :
    (toRec0 (demoRow s i b t)).brand = b ∧ (toRec0 (demoRow s i b t)).type = t ∧
    (toRec0 (demoRow s i b t)).engagement =
      ((Int.floor (s (9 * i + 3) * 500000) + 50000 : ℤ) : ℚ) := by
  have hlookB : List.lookup "Brand" (demoRow s i b t) = some (.str b) := rfl
  have hlookT : List.lookup "Type" (demoRow s i b t) = some (.str t) := rfl
  have hlookE : List.lookup "Total Engagement" (demoRow s i b t) =
      some (.num ((Int.floor (s (9 * i + 3) * 500000) + 50000 : ℤ) : ℚ)) := rfl
  have hqpos : (0 : ℚ) < ((Int.floor (s (9 * i + 3) * 500000) + 50000 : ℤ) : ℚ) := by
    have h1 : (0 : ℤ) ≤ Int.floor (s (9 * i + 3) * 500000) :=
      Int.floor_nonneg.mpr (by positivity)
    have h2 : (0 : ℤ) < Int.floor (s (9 * i + 3) * 500000) + 50000 := by omega
    exact_mod_cast h2
  have hE : num (demoRow s i b t) "Total Engagement" =
      ((Int.floor (s (9 * i + 3) * 500000) + 50000 : ℤ) : ℚ) := by
    rw [num, hlookE]
    exact if_neg hqpos.ne'
  refine ⟨?_, ?_, ?_⟩
  · show ((truthyString (List.lookup "Brand" (demoRow s i b t))).or
      (truthyString (List.lookup "Platform Name" (demoRow s i b t)))).getD "Unknown" = b
    rw [hlookB]
    simp [truthyString, hb]
  · show (truthyString (List.lookup "Type" (demoRow s i b t))).getD "Other" = t
    rw [hlookT]
    simp [truthyString, ht]
  · show (if num (demoRow s i b t) "Total Engagement" = 0 ∧
        num (demoRow s i b t) "Followers (Current Week)" = 0 then
        match ((((demoRow s i b t).map Prod.fst).filter isDateCol).getLast?) with
        | some lastDate => num (demoRow s i b t) lastDate
        | none => num (demoRow s i b t) "Total Engagement"
      else num (demoRow s i b t) "Total Engagement") =
      ((Int.floor (s (9 * i + 3) * 500000) + 50000 : ℤ) : ℚ)
    rw [hE, if_neg (fun h => hqpos.ne' h.1)]

theorem totalEngagement0_foldl (l : List Rec0) (b : ℚ) :
    l.foldl (fun a r => a + r.engagement) b = b + (l.map Rec0.engagement).sum := by
  induction l generalizing b with
  | nil => simp
  | cons x xs ih =>
      rw [List.foldl_cons, ih, List.map_cons, List.sum_cons, add_assoc]

theorem demoTotalEng (s : ℕ → ℚ) (hs : ∀ n, 0 ≤ s n) :
    totalEngagement0 (processData0 (getDemoData s)) =
      ((List.range 7).map
        (fun i => ((Int.floor (s (9 * i + 3) * 500000) + 50000 : ℤ) : ℚ))).sum := by
  have h0 := (toRec0_demoRow s 0 "Nustar" "IR Casino" (by decide) (by decide) (hs _)).2.2
  have h1 := (toRec0_demoRow s 1 "Okada" "IR Casino" (by decide) (by decide) (hs _)).2.2
  have h2 := (toRec0_demoRow s 2 "Solaire" "IR Casino" (by decide) (by decide) (hs _)).2.2
  have h3 := (toRec0_demoRow s 3 "GCash" "Fintech" (by decide) (by decide) (hs _)).2.2
  have h4 := (toRec0_demoRow s 4 "Maya" "Fintech" (by decide) (by decide) (hs _)).2.2
  have h5 := (toRec0_demoRow s 5 "BingoPlus" "Online Casino" (by decide) (by decide) (hs _)).2.2
  have h6 := (toRec0_demoRow s 6 "ArenaPlus" "Online Casino" (by decide) (by decide) (hs _)).2.2
  have hexp : processData0 (getDemoData s) =
      [toRec0 (demoRow s 0 "Nustar" "IR Casino"), toRec0 (demoRow s 1 "Okada" "IR Casino"),
       toRec0 (demoRow s 2 "Solaire" "IR Casino"), toRec0 (demoRow s 3 "GCash" "Fintech"),
       toRec0 (demoRow s 4 "Maya" "Fintech"), toRec0 (demoRow s 5 "BingoPlus" "Online Casino"),
       toRec0 (demoRow s 6 "ArenaPlus" "Online Casino")] := rfl
  rw [hexp, totalEngagement0, totalEngagement0_foldl,
    show List.range 7 = [0, 1, 2, 3, 4, 5, 6] from rfl]
  simp only [List.map_cons, List.map_nil, List.sum_cons, List.sum_nil, h0, h1, h2, h3, h4,
    h5, h6]
  ring

/-- C8 (amended): on load failure part_000 falls back to
`processData(getDemoData())`; the synthetic dataset has the fixed,
documented brand and type lists, but every metric is drawn from
`Math.random()` (the stream `s`), so the aggregate equals the aggregate of
the dataset generated from that load's draws — a function of `s`, not a
fixed documented value (see the counterexample for non-determinism). -/
theorem c8_fallback_demo (s : ℕ → ℚ) (hs : ∀ n, 0 ≤ s n) :
    (processData0 (getDemoData s)).map Rec0.brand = brandsDemo ∧
    (processData0 (getDemoData s)).map Rec0.type = typesDemo ∧
    totalEngagement0 (processData0 (getDemoData s)) =
      ((List.range 7).map
        (fun i => ((Int.floor (s (9 * i + 3) * 500000) + 50000 : ℤ) : ℚ))).sum := by
  have h0 := toRec0_demoRow s 0 "Nustar" "IR Casino" (by decide) (by decide) (hs _)
  have h1 := toRec0_demoRow s 1 "Okada" "IR Casino" (by decide) (by decide) (hs _)
  have h2 := toRec0_demoRow s 2 "Solaire" "IR Casino" (by decide) (by decide) (hs _)
  have h3 := toRec0_demoRow s 3 "GCash" "Fintech" (by decide) (by decide) (hs _)
  have h4 := toRec0_demoRow s 4 "Maya" "Fintech" (by decide) (by decide) (hs _)
  have h5 := toRec0_demoRow s 5 "BingoPlus" "Online Casino" (by decide) (by decide) (hs _)
  have h6 := toRec0_demoRow s 6 "ArenaPlus" "Online Casino" (by decide) (by decide) (hs _)
  have hexp : processData0 (getDemoData s) =
      [toRec0 (demoRow s 0 "Nustar" "IR Casino"), toRec0 (demoRow s 1 "Okada" "IR Casino"),
       toRec0 (demoRow s 2 "Solaire" "IR Casino"), toRec0 (demoRow s 3 "GCash" "Fintech"),
       toRec0 (demoRow s 4 "Maya" "Fintech"), toRec0 (demoRow s 5 "BingoPlus" "Online Casino"),
       toRec0 (demoRow s 6 "ArenaPlus" "Online Casino")] := rfl
  refine ⟨?_, ?_, demoTotalEng s hs⟩
  · rw [hexp]
    simp [h0.1, h1.1, h2.1, h3.1, h4.1, h5.1, h6.1, brandsDemo]
  · rw [hexp]
    simp [h0.2.1, h1.2.1, h2.2.1, h3.2.1, h4.2.1, h5.2.1, h6.2.1, typesDemo]

/-- C8 witness: with the random stream constantly 1/2 the fallback dataset
has the documented brands and types and its total engagement equals the
formula instantiated at that stream. -/
theorem c8_witness :
    (∀ n : ℕ, 0 ≤ (fun _ : ℕ => (1 : ℚ) / 2) n) ∧
    ((processData0 (getDemoData (fun _ : ℕ => (1 : ℚ) / 2))).map Rec0.brand = brandsDemo ∧
     (processData0 (getDemoData (fun _ : ℕ => (1 : ℚ) / 2))).map Rec0.type = typesDemo ∧
     totalEngagement0 (processData0 (getDemoData (fun _ : ℕ => (1 : ℚ) / 2))) =
       ((List.range 7).map
         (fun i => ((Int.floor ((fun _ : ℕ => (1 : ℚ) / 2) (9 * i + 3) * 500000) + 50000 : ℤ)
           : ℚ))).sum) :=
  ⟨fun _ => by norm_num, c8_fallback_demo (fun _ => (1 : ℚ) / 2) (fun _ => by norm_num)⟩

/-- C8 counterexample: two different random draws give different fallback
aggregates (350000 versus 2100000), so there is no single deterministic
synthetic dataset whose aggregate the fallback output always equals. -/
theorem c8_counterexample :
    totalEngagement0 (processData0 (getDemoData (fun _ : ℕ => 0))) = 350000 ∧
    totalEngagement0 (processData0 (getDemoData (fun _ : ℕ => (1 : ℚ) / 2))) = 2100000 ∧
    (350000 : ℚ) ≠ 2100000 := by
  refine ⟨?_, ?_, by norm_num⟩
  · rw [demoTotalEng (fun _ => 0) (fun _ => le_refl 0),
      show List.range 7 = [0, 1, 2, 3, 4, 5, 6] from rfl]
    norm_num
  · rw [demoTotalEng (fun _ => (1 : ℚ) / 2) (fun _ => by norm_num),
      show List.range 7 = [0, 1, 2, 3, 4, 5, 6] from rfl]
    simp only [List.map_cons, List.map_nil, List.sum_cons, List.sum_nil]
    rw [show ((1 : ℚ) / 2 * 500000) = ((250000 : ℕ) : ℚ) by norm_num, Int.floor_natCast]
    norm_num
